import Mathlib

/-!
Shallow embedding of the x-fact data-preparation scripts:
  - `xfact_evidence.py` (the `XFactEvidenceProcessor` and the two
    feature converters), and
  - `eda.py` (the per-year true/false filter).

Rows of the TSV files are modelled as `List String`; Python indexing
errors (`IndexError`, `KeyError`) and explicit `raise`s are modelled by
`Option` failure.  The HuggingFace tokenizer is an external collaborator
and is modelled as an abstract function from the two text arguments to a
record of token ids and optional masks.
-/

/-- Python `str.strip()` / Lean's `String.trim` (drop leading and
trailing whitespace), written structurally on the character list so that
it evaluates by kernel reduction. -/
def strTrim (s : String) : String :=
  ⟨((s.data.dropWhile Char.isWhitespace).reverse.dropWhile
      Char.isWhitespace).reverse⟩

/-- Python slicing `s[:n]` by characters (Lean's `String.take`), written
structurally on the character list so that it evaluates by kernel
reduction. -/
def strTake (s : String) (n : Nat) : String := ⟨s.data.take n⟩

/-- Python negative indexing `xs[-k]` on a list: defined for `1 ≤ k ≤ len`,
`IndexError` (here `none`) otherwise. -/
def negGet (xs : List String) (k : Nat) : Option String :=
  if 1 ≤ k ∧ k ≤ xs.length then xs.get? (xs.length - k) else none

/-- `get_metadata(line)` from `xfact_evidence.py` (lines 53-61):
`claimant = line[-3].strip()`, `review_date = line[-4].strip()`,
`language = line[0].strip()`, `site = line[1].strip()`,
`claim_date = line[-5].strip()`, concatenated into one string. -/
def get_metadata (line : List String) : Option String := do
  let claimant ← negGet line 3
  let review_date ← negGet line 4
  let language ← line.get? 0
  let site ← line.get? 1
  let claim_date ← negGet line 5
  pure ("language : " ++ strTrim language ++ ", site : " ++ strTrim site ++
    ", claimant : " ++ strTrim claimant ++ ", claim_date : " ++
    strTrim claim_date ++ ", review_date: " ++ strTrim review_date)

/-- Python `str.lower()` (i.e. `String.map Char.toLower`), written
structurally on the character list so that it evaluates by kernel
reduction. -/
def strLower (s : String) : String := ⟨s.data.map Char.toLower⟩

/-- The quadruple returned by `XFactEvidenceProcessor.create_example`. -/
structure ExampleParts where
  evidences : List String
  claim_text : String
  label : String
  metadata : String
deriving DecidableEq, Repr

/-- The loop `for i in range(num_evidences): evidences.append(line[2+i])`,
unrolled from the last iteration. -/
def getEvidences (line : List String) : Nat → Option (List String)
  | 0 => some []
  | n + 1 => do
    let rest ← getEvidences line n
    let e ← line.get? (2 + n)
    pure (rest ++ [e])

/-- `XFactEvidenceProcessor.create_example` (lines 167-176): evidence
passages from columns `2 .. 2+num_evidences-1`, claim text `line[-2]`,
label `line[-1].lower()`, plus the metadata string. -/
def create_example (num_evidences : Nat) (line : List String) :
    Option ExampleParts := do
  let evidences ← getEvidences line num_evidences
  let claim_text ← negGet line 2
  let lastField ← negGet line 1
  let metadata ← get_metadata line
  pure ⟨evidences, claim_text, strLower lastField, metadata⟩

/-- `InputExample` from `xfact_evidence.py` (lines 33-50). -/
structure InputExample where
  example_id : String
  question : String
  contexts : List String
  label : String
deriving DecidableEq, Repr

/-- The processor configuration fields relevant to example construction. -/
structure ProcConfig where
  num_evidences : Nat
  use_metadata : Bool

/-- Assembling the `InputExample` appended by the loaders at row index `i`:
guid `"train-%d" % i`, question text optionally extended with metadata. -/
def mkExample (cfg : ProcConfig) (i : Nat) (p : ExampleParts) : InputExample :=
  ⟨"train-" ++ toString i,
   if cfg.use_metadata then p.claim_text ++ " " ++ p.metadata else p.claim_text,
   p.evidences,
   p.label⟩

/-- One iteration of the `get_train_examples` loop (lines 135-159).
Returns the updated label set and the example appended (if any); `none`
models an uncaught exception (`IndexError` from a short row, or the
`ValueError` raised when `create_label_set` is false and the label is
missing from the set).  The Python label set is modelled as a
duplicate-free list in insertion-encounter order; only membership and the
later sort are ever observed.  The per-label `label_count` tally is not
modelled: no claim mentions it. -/
def trainStep (cfg : ProcConfig) (create : Bool) (S : List String) (i : Nat)
    (line : List String) : Option (List String × Option InputExample) :=
  if i = 0 then some (S, none)
  else if line = [] then some (S, none)
  else
    match create_example cfg.num_evidences line with
    | none => none
    | some p =>
      if create then
        some ((if p.label ∈ S then S else S ++ [p.label]), some (mkExample cfg i p))
      else if p.label ∈ S then some (S, some (mkExample cfg i p))
      else none

/-- The `get_train_examples` loop over the remaining lines, starting at row
index `i` with label set `S`. -/
def trainFold (cfg : ProcConfig) (create : Bool) :
    List String → Nat → List (List String) →
    Option (List String × List InputExample)
  | S, _, [] => some (S, [])
  | S, i, l :: ls =>
    match trainStep cfg create S i l with
    | none => none
    | some (S', exOpt) =>
      match trainFold cfg create S' (i + 1) ls with
      | none => none
      | some (Sf, exs) =>
        some (Sf, match exOpt with | some e => e :: exs | none => exs)

/-- `XFactEvidenceProcessor.get_train_examples` (lines 125-165) for one
source, given the lines of `train.{source}.tsv` (the header line included
at index 0) and that source's current label set.  The final
`random.shuffle` only permutes the returned example list and is not
modelled; every property proved below is invariant under permutation of
the result. -/
def get_train_examples (cfg : ProcConfig) (create : Bool) (S : List String)
    (lines : List (List String)) : Option (List String × List InputExample) :=
  trainFold cfg create S 0 lines

/-- One iteration of the dev/test loops (lines 189-210 and 231-251):
header and empty rows are passed over, a parsed row is kept when its label
is in the frozen set and otherwise skipped, incrementing the skip counter
by one. -/
def devStep (cfg : ProcConfig) (S : List String) (i : Nat)
    (line : List String) : Option (Option InputExample × Nat) :=
  if i = 0 then some (none, 0)
  else if line = [] then some (none, 0)
  else
    match create_example cfg.num_evidences line with
    | none => none
    | some p =>
      if p.label ∈ S then some (some (mkExample cfg i p), 0)
      else some (none, 1)

/-- The dev/test loop over the remaining lines starting at row index `i`,
accumulating kept examples in order and the total skipped count. -/
def devFold (cfg : ProcConfig) (S : List String) :
    Nat → List (List String) → Option (List InputExample × Nat)
  | _, [] => some ([], 0)
  | i, l :: ls =>
    match devStep cfg S i l with
    | none => none
    | some (exOpt, k) =>
      match devFold cfg S (i + 1) ls with
      | none => none
      | some (exs, K) =>
        some ((match exOpt with | some e => e :: exs | none => exs), k + K)

/-- `XFactEvidenceProcessor.get_dev_examples` (lines 178-215) for one
source given the lines of the dev file and the source's frozen label set.
Returns the kept examples and the skipped count. -/
def get_dev_examples (cfg : ProcConfig) (S : List String)
    (lines : List (List String)) : Option (List InputExample × Nat) :=
  devFold cfg S 0 lines

/-- `XFactEvidenceProcessor.get_test_examples` (lines 225-253): its loop
body is line-for-line identical to the dev loop (only the file name and
the log text differ), so it is the same fold over the test file's lines. -/
def get_test_examples (cfg : ProcConfig) (S : List String)
    (lines : List (List String)) : Option (List InputExample × Nat) :=
  devFold cfg S 0 lines

/-- `XFactEvidenceProcessor.sort_label_set` (lines 217-223) on one
source's set: `sorted(list(val))`.  Python's `sorted` on a list of
distinct strings produces the unique ascending reordering, which
`List.insertionSort` also produces. -/
def sort_label_set (S : List String) : List String :=
  List.insertionSort (fun a b => a ≤ b) S

/-- `XFactEvidenceProcessor.get_labels` (lines 255-258) on one source's
set: re-sorts and returns the sorted label list. -/
def get_labels (S : List String) : List String :=
  sort_label_set S

/-- The label carried by one indexed row, when the row is a proper data
row (not the header at index 0, not empty) and parses. -/
def rowLabel (cfg : ProcConfig) (p : Nat × List String) : Option String :=
  if p.1 = 0 ∨ p.2 = [] then none
  else (create_example cfg.num_evidences p.2).map (·.label)

/-- The example kept from one indexed row by the dev/test filter: built
exactly when the row is a proper data row, parses, and its label lies in
the frozen set `S`. -/
def devSelect (cfg : ProcConfig) (S : List String) (p : Nat × List String) :
    Option InputExample :=
  if p.1 = 0 ∨ p.2 = [] then none
  else
    match create_example cfg.num_evidences p.2 with
    | none => none
    | some q => if q.label ∈ S then some (mkExample cfg p.1 q) else none

/-- Specification-side view: the labels of all parseable non-header,
non-empty rows, in row order. -/
def seenLabels (cfg : ProcConfig) (lines : List (List String)) : List String :=
  lines.enum.filterMap (rowLabel cfg)

/-- Specification-side view of the dev/test filter: the examples built
from the parseable rows whose label lies in the frozen set `S`. -/
def devKept (cfg : ProcConfig) (S : List String)
    (lines : List (List String)) : List InputExample :=
  lines.enum.filterMap (devSelect cfg S)

/-- Specification-side view of the skip counter: the number of parseable
rows whose label is outside the frozen set `S`. -/
def devSkipped (cfg : ProcConfig) (S : List String)
    (lines : List (List String)) : Nat :=
  (seenLabels cfg lines).countP fun l => decide (l ∉ S)

/-- The record returned by one tokenizer call: token ids, the optional
`attention_mask` and `token_type_ids` entries (a key may be absent from
the returned encoding), and the optional `num_truncated_tokens` entry,
which the converters only log and never act on. -/
structure TokOutput where
  input_ids : List Nat
  attention_mask : Option (List Nat)
  token_type_ids : Option (List Nat)
  num_truncated_tokens : Option Nat
deriving DecidableEq, Repr

/-- The tokenizing capability: called with `text_a` and an optional
`text_b` (all remaining Python keyword arguments — `max_length`, padding,
truncation — are fixed at every call site, so they are absorbed into the
function). -/
abbrev Tokenizer : Type := String → Option String → TokOutput

/-- `InputFeatures` from `xfact_evidence.py` (lines 64-75), with the label
index always present, as at both construction sites. -/
structure InputFeatures where
  example_id : String
  input_ids : List (List Nat)
  attention_mask : Option (List (List Nat))
  token_type_ids : Option (List (List Nat))
  label : Nat
deriving DecidableEq, Repr

/-- The Python dict `{label: i for i, label in enumerate(label_list)}`
looked up at `l`: the index of the LAST occurrence of `l` (later
enumeration entries overwrite earlier ones), `KeyError` (`none`) when `l`
does not occur. -/
def lastIdxOf : List String → String → Option Nat
  | [], _ => none
  | x :: xs, l =>
    match lastIdxOf xs l with
    | some i => some (i + 1)
    | none => if x = l then some 0 else none

/-- The list comprehension `[x[key] for x in choices]` over optional
entries: fails (`KeyError`) as soon as one entry is absent. -/
def collectSome {α : Type} : List (Option α) → Option (List α)
  | [] => some []
  | none :: _ => none
  | some x :: xs => (collectSome xs).map (x :: ·)

/-- `[x[key] for x in choices] if key in choices[0] else None`: when the
first choice has the key, every choice must have it (else `KeyError`);
when the first choice lacks it, the field is silently `None`. -/
def gatherMasks {α : Type} (firstHas : Bool) (xs : List (Option α)) :
    Option (Option (List α)) :=
  if firstHas then (collectSome xs).map some else some none

/-- The per-example body shared by both converter loops: raise on a label
missing from the map, on `choices_inputs[0]` when there are no choices,
or on an inconsistent mask/segment key; otherwise build the feature. -/
def buildFeature (L : List String) (exampleId : String) (label : String)
    (choices : List TokOutput) : Option InputFeatures :=
  match lastIdxOf L label with
  | none => none
  | some lab =>
    match choices.head? with
    | none => none
    | some c0 =>
      match gatherMasks c0.attention_mask.isSome (choices.map fun x => x.attention_mask),
            gatherMasks c0.token_type_ids.isSome (choices.map fun x => x.token_type_ids) with
      | some am, some tt =>
        some ⟨exampleId, choices.map fun x => x.input_ids, am, tt, lab⟩
      | _, _ => none

/-- One iteration of `xfact_evidence_convert_examples_to_features`
(lines 271-318): each evidence passage is tokenized as the pair
`(claim, evidence)`, one choice per context. -/
def xfact_evidence_convert_example (L : List String) (tok : Tokenizer)
    (ex : InputExample) : Option InputFeatures :=
  buildFeature L ex.example_id ex.label
    (ex.contexts.map fun c => tok ex.question (some c))

/-- One iteration of `xfact_claim_evidence_convert_examples_to_features`
(lines 336-402): the claim alone is choice 0, then each evidence passage
alone is one further choice. -/
def xfact_claim_evidence_convert_example (L : List String) (tok : Tokenizer)
    (ex : InputExample) : Option InputFeatures :=
  buildFeature L ex.example_id ex.label
    (tok ex.question none :: ex.contexts.map fun c => tok c none)

/-- The `features.append(...)` loop over all examples: raise on the first
failing example, otherwise collect the features in example order. -/
def convertEach {α β : Type} (f : α → Option β) : List α → Option (List β)
  | [] => some []
  | a :: as =>
    match f a, convertEach f as with
    | some b, some bs => some (b :: bs)
    | _, _ => none

/-- `xfact_evidence_convert_examples_to_features` (lines 261-324).
`max_length` and the other tokenizer keyword arguments live inside
`tok`. -/
def xfact_evidence_convert_examples_to_features (L : List String)
    (tok : Tokenizer) (examples : List InputExample) :
    Option (List InputFeatures) :=
  convertEach (xfact_evidence_convert_example L tok) examples

/-- `xfact_claim_evidence_convert_examples_to_features` (lines 326-408). -/
def xfact_claim_evidence_convert_examples_to_features (L : List String)
    (tok : Tokenizer) (examples : List InputExample) :
    Option (List InputFeatures) :=
  convertEach (xfact_claim_evidence_convert_example L tok) examples

/-- One row of `test.all.tsv` as used by `eda.py`: only the `claimDate`,
`claim` and `label` columns are ever read. -/
structure RawClaimRow where
  claimDate : String
  claim : String
  label : String
deriving DecidableEq, Repr

/-- One record of the per-year JSON output of `eda.py`. -/
structure OutRecord where
  annotation_id : String
  exp_split : String
  text : String
  label : Nat
  label_id : String
deriving DecidableEq, Repr

/-- The filter `df.loc[(df['label'] == 'false') | (df['label'] == 'true')]`
(line 18 of `eda.py`). -/
def trueFalseOnly (rows : List RawClaimRow) : List RawClaimRow :=
  rows.filter fun r => r.label == "false" || r.label == "true"

/-- The column assembly of `eda.py`: `annotation_id = 'placeholder'`,
`exp_split = 'test'`, `text` renamed from `claim`, `label_id` set to the
original label string before `label` is replaced by
`{'false': 0, 'true': 1}` (applied after the true/false filter, so the
label is one of those two strings). -/
def mkOutRecord (r : RawClaimRow) : OutRecord :=
  ⟨"placeholder", "test", r.claim, if r.label = "true" then 1 else 0, r.label⟩

/-- The year selection `df.loc[df['claimDate'] == year]` after
`df['claimDate'] = df.claimDate.astype(str).str[:4]` (lines 14 and
31/37/43), projected onto the output columns. -/
def biYear (year : String) (rows : List RawClaimRow) : List OutRecord :=
  ((trueFalseOnly rows).filter fun r => strTake r.claimDate 4 == year).map mkOutRecord

/-- The complete set of per-year outputs written by `eda.py`
(lines 74-84): exactly the years 2020, 2018 and 2016. -/
def edaOutputs (rows : List RawClaimRow) : List (String × List OutRecord) :=
  [("2020", biYear "2020" rows), ("2018", biYear "2018" rows),
   ("2016", biYear "2016" rows)]

/-- The last `n` entries of a row (the trailing positions). -/
def lastN (n : Nat) (xs : List String) : List String :=
  xs.drop (xs.length - n)

/-- The example built from one indexed row by the training loop: built
exactly when the row is a proper data row and parses (in create mode no
label test is applied). -/
def trainRowExample (cfg : ProcConfig) (p : Nat × List String) :
    Option InputExample :=
  if p.1 = 0 ∨ p.2 = [] then none
  else (create_example cfg.num_evidences p.2).map (mkExample cfg p.1)

/-- A tokenizer fixture for witnesses: every call yields two token ids,
an attention mask and segment ids. -/
def tokW : Tokenizer := fun _ _ => ⟨[5, 7], some [1, 1], some [0, 0], none⟩

/-- An example fixture with two evidence passages. -/
def exW1 : InputExample := ⟨"id1", "claim one", ["ev1", "ev2"], "true"⟩

/-- A frozen label-list fixture. -/
def labelsW : List String := ["false", "true"]

/-- A tokenizer fixture that reports truncation on every call and pads to
length 2; used to witness that truncation is not fatal. -/
def tokTrunc : Tokenizer := fun _ _ => ⟨[5, 7], some [1, 1], some [0, 0], some 12⟩

/-- A processor-configuration fixture: three evidences, no metadata. -/
def cfgW : ProcConfig := ⟨3, false⟩

/-- A ten-column row fixture whose label lower-cases to "false". -/
def rowGood : List String :=
  ["en", "site", "e1", "e2", "e3", "cd", "rd", "who", "claim text", "False"]

/-- A ten-column row fixture whose label is outside the frozen set. -/
def rowUnknown : List String :=
  ["en", "site", "e1", "e2", "e3", "cd", "rd", "who", "claim two", "Unknown"]

/-- A file fixture: header row, an unknown-label row, a known-label row. -/
def linesW : List (List String) := [["hdr"], rowUnknown, rowGood]

/-- A raw-claims fixture for the year-filter script: two 2020 rows (one
with a non-binary label), one 2018 row. -/
def rowsEdaW : List RawClaimRow :=
  [⟨"20200115", "c1", "true"⟩, ⟨"20180101", "c2", "false"⟩,
   ⟨"20200202", "c3", "half"⟩]

/-! ## Helper lemmas: the converter loops -/

theorem convertEach_forall₂ {α β : Type} {f : α → Option β} :
    ∀ {l : List α} {l' : List β}, convertEach f l = some l' →
      List.Forall₂ (fun a b => f a = some b) l l'
  | [], _, h => by
    simp only [convertEach, Option.some.injEq] at h
    subst h
    exact List.Forall₂.nil
  | a :: as, l', h => by
    cases hf : f a with
    | none => simp [convertEach, hf] at h
    | some b =>
      cases hr : convertEach f as with
      | none => simp [convertEach, hf, hr] at h
      | some bs =>
        simp only [convertEach, hf, hr, Option.some.injEq] at h
        subst h
        exact List.Forall₂.cons hf (convertEach_forall₂ hr)

theorem convertEach_isSome {α β : Type} {f : α → Option β} :
    ∀ {l : List α}, (∀ a ∈ l, (f a).isSome) → (convertEach f l).isSome
  | [], _ => by simp [convertEach]
  | a :: as, h => by
    have ha : (f a).isSome := h a (List.mem_cons_self a as)
    have has : (convertEach f as).isSome :=
      convertEach_isSome fun x hx => h x (List.mem_cons_of_mem a hx)
    cases hf : f a with
    | none => rw [hf] at ha; simp at ha
    | some b =>
      cases hr : convertEach f as with
      | none => rw [hr] at has; simp at has
      | some bs => simp [convertEach, hf, hr]

theorem collectSome_isSome {α : Type} :
    ∀ {xs : List (Option α)}, (∀ x ∈ xs, x.isSome) → (collectSome xs).isSome
  | [], _ => by simp [collectSome]
  | none :: xs, h => by
    have := h none (List.mem_cons_self none xs)
    simp at this
  | some x :: xs, h => by
    have hs : (collectSome xs).isSome :=
      collectSome_isSome fun y hy => h y (List.mem_cons_of_mem _ hy)
    cases hr : collectSome xs with
    | none => rw [hr] at hs; simp at hs
    | some l => simp [collectSome, hr]

theorem collectSome_forall {α : Type} :
    ∀ {xs : List (Option α)} {l : List α},
      collectSome xs = some l → ∀ x ∈ xs, x.isSome
  | [], _, _ => by simp
  | none :: xs, l, h => by simp [collectSome] at h
  | some x :: xs, l, h => by
    intro y hy
    rcases List.mem_cons.mp hy with rfl | hy'
    · simp
    · cases hr : collectSome xs with
      | none => simp [collectSome, hr] at h
      | some l' => exact collectSome_forall hr y hy'

theorem gatherMasks_isSome {α : Type} {fh : Bool} {xs : List (Option α)}
    (h : fh = true → ∀ x ∈ xs, x.isSome) : (gatherMasks fh xs).isSome := by
  cases fh with
  | false => simp [gatherMasks]
  | true =>
    have := collectSome_isSome (h rfl)
    cases hr : collectSome xs with
    | none => rw [hr] at this; simp at this
    | some l => simp [gatherMasks, hr]

theorem gatherMasks_isSome_eq {α : Type} {fh : Bool} {xs : List (Option α)}
    {m : Option (List α)} (h : gatherMasks fh xs = some m) : m.isSome = fh := by
  cases fh with
  | false =>
    simp only [gatherMasks, if_neg Bool.false_ne_true, Option.some.injEq] at h
    subst h; rfl
  | true =>
    simp only [gatherMasks, if_pos rfl] at h
    cases hr : collectSome xs with
    | none => rw [hr] at h; simp at h
    | some l => rw [hr] at h; simp at h; subst h; rfl

theorem gatherMasks_true_forall {α : Type} {xs : List (Option α)}
    {m : Option (List α)} (h : gatherMasks true xs = some m) :
    ∀ x ∈ xs, x.isSome := by
  simp only [gatherMasks, if_pos rfl] at h
  cases hr : collectSome xs with
  | none => rw [hr] at h; simp at h
  | some l => exact collectSome_forall hr

theorem lastIdxOf_isSome_of_mem {l : String} :
    ∀ {L : List String}, l ∈ L → (lastIdxOf L l).isSome
  | [], h => by simp at h
  | x :: xs, h => by
    cases hr : lastIdxOf xs l with
    | some i => simp [lastIdxOf, hr]
    | none =>
      rcases List.mem_cons.mp h with rfl | hx
      · simp [lastIdxOf, hr]
      · have := lastIdxOf_isSome_of_mem hx
        rw [hr] at this; simp at this

theorem lastIdxOf_get? {l : String} :
    ∀ {L : List String} {i : Nat}, lastIdxOf L l = some i → L.get? i = some l
  | [], i, h => by simp [lastIdxOf] at h
  | x :: xs, i, h => by
    cases hr : lastIdxOf xs l with
    | some j =>
      simp only [lastIdxOf, hr, Option.some.injEq] at h
      subst h
      simpa using lastIdxOf_get? hr
    | none =>
      simp only [lastIdxOf, hr] at h
      by_cases hx : x = l
      · rw [if_pos hx] at h
        simp at h
        subst h
        simp [hx]
      · rw [if_neg hx] at h
        simp at h

theorem lastIdxOf_not_mem {l : String} :
    ∀ {L : List String}, l ∉ L → lastIdxOf L l = none
  | [], _ => rfl
  | x :: xs, h => by
    have hx : x ≠ l := fun e => h (e ▸ List.mem_cons_self x xs)
    have hxs : l ∉ xs := fun e => h (List.mem_cons_of_mem _ e)
    simp [lastIdxOf, lastIdxOf_not_mem hxs, hx]

theorem lastIdxOf_get_of_nodup :
    ∀ {L : List String}, L.Nodup → ∀ {i : Nat} (h : i < L.length),
      lastIdxOf L (L.get ⟨i, h⟩) = some i
  | [], _, i, h => by simp at h
  | x :: xs, hnd, 0, h => by
    have hx : x ∉ xs := (List.nodup_cons.mp hnd).1
    simp [lastIdxOf, lastIdxOf_not_mem hx]
  | x :: xs, hnd, i + 1, h => by
    have hi : i < xs.length := Nat.lt_of_succ_lt_succ h
    have ih := lastIdxOf_get_of_nodup (List.nodup_cons.mp hnd).2 hi
    simp only [List.get_eq_getElem] at ih ⊢
    simp [lastIdxOf, List.getElem_cons_succ, ih]

theorem buildFeature_spec {L : List String} {exId lab : String}
    {choices : List TokOutput} {f : InputFeatures}
    (h : buildFeature L exId lab choices = some f) :
    f.example_id = exId ∧
    f.input_ids = choices.map (fun x => x.input_ids) ∧
    lastIdxOf L lab = some f.label ∧
    ∃ c0, choices.head? = some c0 ∧
      gatherMasks c0.attention_mask.isSome
        (choices.map fun x => x.attention_mask) = some f.attention_mask ∧
      gatherMasks c0.token_type_ids.isSome
        (choices.map fun x => x.token_type_ids) = some f.token_type_ids := by
  unfold buildFeature at h
  split at h
  · simp at h
  next labIdx hl =>
    split at h
    · simp at h
    next c0 hh =>
      split at h
      next am tt hg1 hg2 =>
        simp only [Option.some.injEq] at h
        subst h
        exact ⟨rfl, rfl, hl, c0, hh, hg1, hg2⟩
      next => simp at h

theorem buildFeature_isSome {L : List String} {exId lab : String}
    {choices : List TokOutput}
    (hlab : (lastIdxOf L lab).isSome)
    (hne : choices ≠ [])
    (hA : ∀ x ∈ choices, ∀ y ∈ choices,
      x.attention_mask.isSome = y.attention_mask.isSome)
    (hT : ∀ x ∈ choices, ∀ y ∈ choices,
      x.token_type_ids.isSome = y.token_type_ids.isSome) :
    (buildFeature L exId lab choices).isSome := by
  unfold buildFeature
  cases hl : lastIdxOf L lab with
  | none => rw [hl] at hlab; simp at hlab
  | some labIdx =>
    cases hh : choices.head? with
    | none => exact absurd (List.head?_eq_none_iff.mp hh) hne
    | some c0 =>
      have hc0 : c0 ∈ choices := List.mem_of_mem_head? hh
      have hg1 : (gatherMasks c0.attention_mask.isSome
          (choices.map fun x => x.attention_mask)).isSome := by
        apply gatherMasks_isSome
        intro hsome m hm
        rcases List.mem_map.mp hm with ⟨x, hx, rfl⟩
        rw [hA x hx c0 hc0, hsome]
      have hg2 : (gatherMasks c0.token_type_ids.isSome
          (choices.map fun x => x.token_type_ids)).isSome := by
        apply gatherMasks_isSome
        intro hsome m hm
        rcases List.mem_map.mp hm with ⟨x, hx, rfl⟩
        rw [hT x hx c0 hc0, hsome]
      cases hm1 : gatherMasks c0.attention_mask.isSome
          (choices.map fun x => x.attention_mask) with
      | none => rw [hm1] at hg1; simp at hg1
      | some am =>
        cases hm2 : gatherMasks c0.token_type_ids.isSome
            (choices.map fun x => x.token_type_ids) with
        | none => rw [hm2] at hg2; simp at hg2
        | some tt => simp [hm1, hm2]

theorem evidence_example_shape {L : List String} {tok : Tokenizer}
    {max_length : Nat}
    (hpad : ∀ a b, ((tok a b).input_ids).length = max_length)
    {ex : InputExample} {f : InputFeatures}
    (h : xfact_evidence_convert_example L tok ex = some f) :
    f.input_ids.length = ex.contexts.length ∧
    ∀ r ∈ f.input_ids, r.length = max_length := by
  unfold xfact_evidence_convert_example at h
  obtain ⟨-, hids, -, -⟩ := buildFeature_spec h
  constructor
  · rw [hids, List.length_map, List.length_map]
  · intro r hr
    rw [hids] at hr
    rcases List.mem_map.mp hr with ⟨x, hx, rfl⟩
    rcases List.mem_map.mp hx with ⟨c, hc, rfl⟩
    exact hpad _ _

theorem claim_evidence_example_shape {L : List String} {tok : Tokenizer}
    {max_length : Nat}
    (hpad : ∀ a b, ((tok a b).input_ids).length = max_length)
    {ex : InputExample} {f : InputFeatures}
    (h : xfact_claim_evidence_convert_example L tok ex = some f) :
    f.input_ids.length = ex.contexts.length + 1 ∧
    ∀ r ∈ f.input_ids, r.length = max_length := by
  unfold xfact_claim_evidence_convert_example at h
  obtain ⟨-, hids, -, -⟩ := buildFeature_spec h
  constructor
  · rw [hids, List.length_map, List.length_cons, List.length_map]
  · intro r hr
    rw [hids] at hr
    rcases List.mem_map.mp hr with ⟨x, hx, rfl⟩
    rcases List.mem_cons.mp hx with rfl | hx'
    · exact hpad _ _
    · rcases List.mem_map.mp hx' with ⟨c, hc, rfl⟩
      exact hpad _ _

/-! ## Claim C1 -/

/-- C1: with a tokenizer that pads every encoding to exactly
`max_length`, every feature emitted by the evidence-pairing converter has
as many input-id rows as its example has evidence passages
(`len(example.contexts)`), every feature emitted by the claim-plus-
evidence converter has one more, and every inner row has exactly
`max_length` entries. -/
theorem c1_feature_shapes (L : List String) (max_length : Nat)
    (tok : Tokenizer) (examples : List InputExample)
    (fs gs : List InputFeatures)
    (hpad : ∀ a b, ((tok a b).input_ids).length = max_length)
    (hA : xfact_evidence_convert_examples_to_features L tok examples = some fs)
    (hB : xfact_claim_evidence_convert_examples_to_features L tok examples = some gs) :
    List.Forall₂ (fun ex f => f.input_ids.length = ex.contexts.length ∧
      ∀ r ∈ f.input_ids, r.length = max_length) examples fs ∧
    List.Forall₂ (fun ex g => g.input_ids.length = ex.contexts.length + 1 ∧
      ∀ r ∈ g.input_ids, r.length = max_length) examples gs := by
  constructor
  · exact (convertEach_forall₂ hA).imp fun _ _ hf => evidence_example_shape hpad hf
  · exact (convertEach_forall₂ hB).imp fun _ _ hg => claim_evidence_example_shape hpad hg

/-- Witness for C1 at the concrete fixtures. -/
theorem c1_feature_shapes_witness :
    (∀ a b, ((tokW a b).input_ids).length = 2) ∧
    (List.Forall₂ (fun ex f => f.input_ids.length = ex.contexts.length ∧
      ∀ r ∈ f.input_ids, r.length = 2) [exW1]
      [(⟨"id1", [[5, 7], [5, 7]], some [[1, 1], [1, 1]],
        some [[0, 0], [0, 0]], 1⟩ : InputFeatures)] ∧
    List.Forall₂ (fun ex g => g.input_ids.length = ex.contexts.length + 1 ∧
      ∀ r ∈ g.input_ids, r.length = 2) [exW1]
      [(⟨"id1", [[5, 7], [5, 7], [5, 7]], some [[1, 1], [1, 1], [1, 1]],
        some [[0, 0], [0, 0], [0, 0]], 1⟩ : InputFeatures)]) :=
  ⟨fun _ _ => rfl,
   c1_feature_shapes labelsW 2 tokW [exW1] _ _ (fun _ _ => rfl) rfl rfl⟩

/-! ## Claim C6 -/

theorem convert_example_label {L : List String} {tok : Tokenizer}
    {ex : InputExample} {f : InputFeatures}
    (h : buildFeature L ex.example_id ex.label
      (ex.contexts.map fun c => tok ex.question (some c)) = some f ∨
      buildFeature L ex.example_id ex.label
      (tok ex.question none :: ex.contexts.map fun c => tok c none) = some f) :
    f.label < L.length ∧ L.get? f.label = some ex.label := by
  have hl : lastIdxOf L ex.label = some f.label := by
    rcases h with h | h
    · exact (buildFeature_spec h).2.2.1
    · exact (buildFeature_spec h).2.2.1
  have hg := lastIdxOf_get? hl
  rcases List.get?_eq_some.mp hg with ⟨hlt, -⟩
  exact ⟨hlt, hg⟩

/-- C6: for a duplicate-free label list, the label at vocabulary position
`i` is mapped to integer `i`, and both converters emit for every example
the label index whose vocabulary entry is exactly that example's label
(so, over a duplicate-free list, the mapping is the bijection inverse to
positional lookup). -/
theorem c6_label_bijection (L : List String) (tok : Tokenizer)
    (examples : List InputExample) (fs gs : List InputFeatures)
    (hnd : L.Nodup)
    (hA : xfact_evidence_convert_examples_to_features L tok examples = some fs)
    (hB : xfact_claim_evidence_convert_examples_to_features L tok examples = some gs) :
    (∀ i (h : i < L.length), lastIdxOf L (L.get ⟨i, h⟩) = some i) ∧
    List.Forall₂ (fun ex f => f.label < L.length ∧
      L.get? f.label = some ex.label) examples fs ∧
    List.Forall₂ (fun ex g => g.label < L.length ∧
      L.get? g.label = some ex.label) examples gs := by
  refine ⟨fun i h => lastIdxOf_get_of_nodup hnd h, ?_, ?_⟩
  · exact (convertEach_forall₂ hA).imp fun _ _ hf => convert_example_label (Or.inl hf)
  · exact (convertEach_forall₂ hB).imp fun _ _ hg => convert_example_label (Or.inr hg)

/-- Witness for C6 at the concrete fixtures. -/
theorem c6_label_bijection_witness :
    labelsW.Nodup ∧
    ((∀ i (h : i < labelsW.length), lastIdxOf labelsW (labelsW.get ⟨i, h⟩) = some i) ∧
    List.Forall₂ (fun ex f => f.label < labelsW.length ∧
      labelsW.get? f.label = some ex.label) [exW1]
      [(⟨"id1", [[5, 7], [5, 7]], some [[1, 1], [1, 1]],
        some [[0, 0], [0, 0]], 1⟩ : InputFeatures)] ∧
    List.Forall₂ (fun ex g => g.label < labelsW.length ∧
      labelsW.get? g.label = some ex.label) [exW1]
      [(⟨"id1", [[5, 7], [5, 7], [5, 7]], some [[1, 1], [1, 1], [1, 1]],
        some [[0, 0], [0, 0], [0, 0]], 1⟩ : InputFeatures)]) :=
  ⟨by decide,
   c6_label_bijection labelsW tokW [exW1] _ _ (by decide) rfl rfl⟩

/-! ## Claim C3 -/

theorem convertEach_mem {α β : Type} {f : α → Option β} :
    ∀ {l : List α} {l' : List β}, convertEach f l = some l' →
      ∀ b ∈ l', ∃ a ∈ l, f a = some b
  | [], _, h => by
    simp only [convertEach, Option.some.injEq] at h
    subst h
    simp
  | a :: as, l', h => by
    cases hf : f a with
    | none => simp [convertEach, hf] at h
    | some b =>
      cases hr : convertEach f as with
      | none => simp [convertEach, hf, hr] at h
      | some bs =>
        simp only [convertEach, hf, hr, Option.some.injEq] at h
        subst h
        intro x hx
        rcases List.mem_cons.mp hx with rfl | hx'
        · exact ⟨a, List.mem_cons_self a as, hf⟩
        · rcases convertEach_mem hr x hx' with ⟨a', ha', hfa'⟩
          exact ⟨a', List.mem_cons_of_mem a ha', hfa'⟩

theorem buildFeature_mask_isSome {L : List String} {exId lab : String}
    {choices : List TokOutput} {f : InputFeatures}
    (h : buildFeature L exId lab choices = some f) :
    ∃ c0, choices.head? = some c0 ∧
      f.attention_mask.isSome = c0.attention_mask.isSome ∧
      f.token_type_ids.isSome = c0.token_type_ids.isSome ∧
      (f.attention_mask.isSome = true →
        ∀ x ∈ choices, x.attention_mask.isSome = true) ∧
      (f.token_type_ids.isSome = true →
        ∀ x ∈ choices, x.token_type_ids.isSome = true) := by
  obtain ⟨-, -, -, c0, hh, hg1, hg2⟩ := buildFeature_spec h
  have e1 : f.attention_mask.isSome = c0.attention_mask.isSome :=
    gatherMasks_isSome_eq hg1
  have e2 : f.token_type_ids.isSome = c0.token_type_ids.isSome :=
    gatherMasks_isSome_eq hg2
  refine ⟨c0, hh, e1, e2, ?_, ?_⟩
  · intro hs x hx
    have hc0 : c0.attention_mask.isSome = true := e1.symm.trans hs
    rw [hc0] at hg1
    exact gatherMasks_true_forall hg1 x.attention_mask
      (List.mem_map_of_mem _ hx)
  · intro hs x hx
    have hc0 : c0.token_type_ids.isSome = true := e2.symm.trans hs
    rw [hc0] at hg2
    exact gatherMasks_true_forall hg2 x.token_type_ids
      (List.mem_map_of_mem _ hx)

/-- C3: under the tokenizer contract that the presence of
`attention_mask` and of `token_type_ids` in an encoding does not depend
on the encoded texts, the inclusion of attention masks and segment ids in
the converter output is one batch-wide decision: every emitted feature's
mask (resp. segment-id) presence equals the tokenizer's fixed capability,
probed at an arbitrary call, so it never varies between examples of one
batch, in either converter.  Unconditionally (last two conjuncts), a
feature carries an attention mask or segment ids only when the tokenizer
returned them for every choice of that feature's example — in particular
for all choices of the first example.  A tokenizer whose mask presence
varies across examples violates the contract hypotheses and is not
silently in the theorem's scope. -/
theorem c3_mask_inclusion_batchwide (L : List String) (tok : Tokenizer)
    (examples : List InputExample) (fs gs : List InputFeatures)
    (hA : ∀ a b a' b',
      (tok a b).attention_mask.isSome = (tok a' b').attention_mask.isSome)
    (hT : ∀ a b a' b',
      (tok a b).token_type_ids.isSome = (tok a' b').token_type_ids.isSome)
    (hE : xfact_evidence_convert_examples_to_features L tok examples = some fs)
    (hC : xfact_claim_evidence_convert_examples_to_features L tok examples = some gs) :
    (∀ f ∈ fs,
      f.attention_mask.isSome = (tok "" none).attention_mask.isSome ∧
      f.token_type_ids.isSome = (tok "" none).token_type_ids.isSome) ∧
    (∀ g ∈ gs,
      g.attention_mask.isSome = (tok "" none).attention_mask.isSome ∧
      g.token_type_ids.isSome = (tok "" none).token_type_ids.isSome) ∧
    List.Forall₂ (fun ex f =>
      (f.attention_mask.isSome = true → ∀ c ∈ ex.contexts,
        ((tok ex.question (some c)).attention_mask).isSome = true) ∧
      (f.token_type_ids.isSome = true → ∀ c ∈ ex.contexts,
        ((tok ex.question (some c)).token_type_ids).isSome = true)) examples fs ∧
    List.Forall₂ (fun ex g =>
      (g.attention_mask.isSome = true →
        ((tok ex.question none).attention_mask).isSome = true ∧
        ∀ c ∈ ex.contexts, ((tok c none).attention_mask).isSome = true) ∧
      (g.token_type_ids.isSome = true →
        ((tok ex.question none).token_type_ids).isSome = true ∧
        ∀ c ∈ ex.contexts, ((tok c none).token_type_ids).isSome = true)) examples gs := by
  refine ⟨?_, ?_, ?_, ?_⟩
  · intro f hf
    rcases convertEach_mem hE f hf with ⟨ex, -, hex⟩
    unfold xfact_evidence_convert_example at hex
    obtain ⟨c0, hh, e1, e2, -, -⟩ := buildFeature_mask_isSome hex
    have hc0 : c0 ∈ ex.contexts.map fun c => tok ex.question (some c) :=
      List.mem_of_mem_head? hh
    rcases List.mem_map.mp hc0 with ⟨c, -, rfl⟩
    exact ⟨e1.trans (hA _ _ _ _), e2.trans (hT _ _ _ _)⟩
  · intro g hg
    rcases convertEach_mem hC g hg with ⟨ex, -, hex⟩
    unfold xfact_claim_evidence_convert_example at hex
    obtain ⟨c0, hh, e1, e2, -, -⟩ := buildFeature_mask_isSome hex
    rw [List.head?_cons, Option.some.injEq] at hh
    subst hh
    exact ⟨e1.trans (hA _ _ _ _), e2.trans (hT _ _ _ _)⟩
  · refine (convertEach_forall₂ hE).imp fun ex f hf => ?_
    unfold xfact_evidence_convert_example at hf
    obtain ⟨-, -, -, -, h4, h5⟩ := buildFeature_mask_isSome hf
    constructor
    · intro hs c hc
      exact h4 hs _ (List.mem_map_of_mem _ hc)
    · intro hs c hc
      exact h5 hs _ (List.mem_map_of_mem _ hc)
  · refine (convertEach_forall₂ hC).imp fun ex g hg => ?_
    unfold xfact_claim_evidence_convert_example at hg
    obtain ⟨-, -, -, -, h4, h5⟩ := buildFeature_mask_isSome hg
    constructor
    · intro hs
      refine ⟨h4 hs _ (List.mem_cons_self _ _), fun c hc => ?_⟩
      exact h4 hs _ (List.mem_cons_of_mem _ (List.mem_map_of_mem _ hc))
    · intro hs
      refine ⟨h5 hs _ (List.mem_cons_self _ _), fun c hc => ?_⟩
      exact h5 hs _ (List.mem_cons_of_mem _ (List.mem_map_of_mem _ hc))

/-- Witness for C3 at the concrete fixtures. -/
theorem c3_mask_inclusion_batchwide_witness :
    (∀ (a : String) (b : Option String) (a' : String) (b' : Option String),
      (tokW a b).attention_mask.isSome = (tokW a' b').attention_mask.isSome) ∧
    ((∀ f ∈ [(⟨"id1", [[5, 7], [5, 7]], some [[1, 1], [1, 1]],
        some [[0, 0], [0, 0]], 1⟩ : InputFeatures)],
      f.attention_mask.isSome = (tokW "" none).attention_mask.isSome ∧
      f.token_type_ids.isSome = (tokW "" none).token_type_ids.isSome) ∧
    (∀ g ∈ [(⟨"id1", [[5, 7], [5, 7], [5, 7]], some [[1, 1], [1, 1], [1, 1]],
        some [[0, 0], [0, 0], [0, 0]], 1⟩ : InputFeatures)],
      g.attention_mask.isSome = (tokW "" none).attention_mask.isSome ∧
      g.token_type_ids.isSome = (tokW "" none).token_type_ids.isSome) ∧
    List.Forall₂ (fun ex f =>
      (f.attention_mask.isSome = true → ∀ c ∈ ex.contexts,
        ((tokW ex.question (some c)).attention_mask).isSome = true) ∧
      (f.token_type_ids.isSome = true → ∀ c ∈ ex.contexts,
        ((tokW ex.question (some c)).token_type_ids).isSome = true)) [exW1]
      [(⟨"id1", [[5, 7], [5, 7]], some [[1, 1], [1, 1]],
        some [[0, 0], [0, 0]], 1⟩ : InputFeatures)] ∧
    List.Forall₂ (fun ex g =>
      (g.attention_mask.isSome = true →
        ((tokW ex.question none).attention_mask).isSome = true ∧
        ∀ c ∈ ex.contexts, ((tokW c none).attention_mask).isSome = true) ∧
      (g.token_type_ids.isSome = true →
        ((tokW ex.question none).token_type_ids).isSome = true ∧
        ∀ c ∈ ex.contexts, ((tokW c none).token_type_ids).isSome = true)) [exW1]
      [(⟨"id1", [[5, 7], [5, 7], [5, 7]], some [[1, 1], [1, 1], [1, 1]],
        some [[0, 0], [0, 0], [0, 0]], 1⟩ : InputFeatures)]) :=
  ⟨fun _ _ _ _ => rfl,
   c3_mask_inclusion_batchwide labelsW tokW [exW1] _ _
     (fun _ _ _ _ => rfl) (fun _ _ _ _ => rfl) rfl rfl⟩

/-! ## Claim C9 -/

theorem evidence_example_isSome {L : List String} {tok : Tokenizer}
    {ex : InputExample}
    (hlab : ex.label ∈ L) (hcx : ex.contexts ≠ [])
    (hA : ∀ a b a' b',
      (tok a b).attention_mask.isSome = (tok a' b').attention_mask.isSome)
    (hT : ∀ a b a' b',
      (tok a b).token_type_ids.isSome = (tok a' b').token_type_ids.isSome) :
    (xfact_evidence_convert_example L tok ex).isSome := by
  unfold xfact_evidence_convert_example
  apply buildFeature_isSome (lastIdxOf_isSome_of_mem hlab)
  · intro hmap
    exact hcx (List.map_eq_nil_iff.mp hmap)
  · intro x hx y hy
    rcases List.mem_map.mp hx with ⟨c, -, rfl⟩
    rcases List.mem_map.mp hy with ⟨c', -, rfl⟩
    exact hA _ _ _ _
  · intro x hx y hy
    rcases List.mem_map.mp hx with ⟨c, -, rfl⟩
    rcases List.mem_map.mp hy with ⟨c', -, rfl⟩
    exact hT _ _ _ _

theorem claim_evidence_example_isSome {L : List String} {tok : Tokenizer}
    {ex : InputExample} (hlab : ex.label ∈ L)
    (hA : ∀ a b a' b',
      (tok a b).attention_mask.isSome = (tok a' b').attention_mask.isSome)
    (hT : ∀ a b a' b',
      (tok a b).token_type_ids.isSome = (tok a' b').token_type_ids.isSome) :
    (xfact_claim_evidence_convert_example L tok ex).isSome := by
  unfold xfact_claim_evidence_convert_example
  apply buildFeature_isSome (lastIdxOf_isSome_of_mem hlab) (List.cons_ne_nil _ _)
  · intro x hx y hy
    rcases List.mem_cons.mp hx with rfl | hx' <;>
      rcases List.mem_cons.mp hy with rfl | hy'
    · rfl
    · rcases List.mem_map.mp hy' with ⟨c', -, rfl⟩
      exact hA _ _ _ _
    · rcases List.mem_map.mp hx' with ⟨c, -, rfl⟩
      exact hA _ _ _ _
    · rcases List.mem_map.mp hx' with ⟨c, -, rfl⟩
      rcases List.mem_map.mp hy' with ⟨c', -, rfl⟩
      exact hA _ _ _ _
  · intro x hx y hy
    rcases List.mem_cons.mp hx with rfl | hx' <;>
      rcases List.mem_cons.mp hy with rfl | hy'
    · rfl
    · rcases List.mem_map.mp hy' with ⟨c', -, rfl⟩
      exact hT _ _ _ _
    · rcases List.mem_map.mp hx' with ⟨c, -, rfl⟩
      exact hT _ _ _ _
    · rcases List.mem_map.mp hx' with ⟨c, -, rfl⟩
      rcases List.mem_map.mp hy' with ⟨c', -, rfl⟩
      exact hT _ _ _ _

/-- C9: truncation is never fatal and never drops an example.  The
tokenizer below may report any amount of truncation
(`num_truncated_tokens` is unconstrained); provided every example's
label is in the label list, every example has at least one evidence
passage (the evidence-pairing converter reads `choices_inputs[0]`), and
the tokenizer's mask/segment presence is text-independent, both
converters succeed and return exactly one feature per input example, in
input order (matching example ids position by position). -/
theorem c9_truncation_non_fatal (L : List String) (tok : Tokenizer)
    (examples : List InputExample)
    (hlab : ∀ ex ∈ examples, ex.label ∈ L)
    (hcx : ∀ ex ∈ examples, ex.contexts ≠ [])
    (hA : ∀ a b a' b',
      (tok a b).attention_mask.isSome = (tok a' b').attention_mask.isSome)
    (hT : ∀ a b a' b',
      (tok a b).token_type_ids.isSome = (tok a' b').token_type_ids.isSome) :
    (xfact_evidence_convert_examples_to_features L tok examples).isSome = true ∧
    (xfact_claim_evidence_convert_examples_to_features L tok examples).isSome = true ∧
    (∀ fs, xfact_evidence_convert_examples_to_features L tok examples = some fs →
      fs.length = examples.length ∧
      List.Forall₂ (fun ex f => f.example_id = ex.example_id) examples fs) ∧
    (∀ gs, xfact_claim_evidence_convert_examples_to_features L tok examples = some gs →
      gs.length = examples.length ∧
      List.Forall₂ (fun ex g => g.example_id = ex.example_id) examples gs) := by
  refine ⟨?_, ?_, ?_, ?_⟩
  · exact convertEach_isSome fun ex hex =>
      evidence_example_isSome (hlab ex hex) (hcx ex hex) hA hT
  · exact convertEach_isSome fun ex hex =>
      claim_evidence_example_isSome (hlab ex hex) hA hT
  · intro fs hfs
    have h2 := (convertEach_forall₂ hfs).imp fun ex f hf => by
      unfold xfact_evidence_convert_example at hf
      exact (buildFeature_spec hf).1
    exact ⟨h2.length_eq.symm, h2⟩
  · intro gs hgs
    have h2 := (convertEach_forall₂ hgs).imp fun ex g hg => by
      unfold xfact_claim_evidence_convert_example at hg
      exact (buildFeature_spec hg).1
    exact ⟨h2.length_eq.symm, h2⟩

/-- Witness for C9: a tokenizer reporting 12 truncated tokens on every
choice still yields one feature per example. -/
theorem c9_truncation_non_fatal_witness :
    (∀ ex ∈ [exW1], ex.label ∈ labelsW) ∧
    (∀ ex ∈ [exW1], ex.contexts ≠ []) ∧
    ((xfact_evidence_convert_examples_to_features labelsW tokTrunc [exW1]).isSome = true ∧
    (xfact_claim_evidence_convert_examples_to_features labelsW tokTrunc [exW1]).isSome = true ∧
    (∀ fs, xfact_evidence_convert_examples_to_features labelsW tokTrunc [exW1] = some fs →
      fs.length = [exW1].length ∧
      List.Forall₂ (fun ex f => f.example_id = ex.example_id) [exW1] fs) ∧
    (∀ gs, xfact_claim_evidence_convert_examples_to_features labelsW tokTrunc [exW1] = some gs →
      gs.length = [exW1].length ∧
      List.Forall₂ (fun ex g => g.example_id = ex.example_id) [exW1] gs)) :=
  ⟨by decide, by decide,
   c9_truncation_non_fatal labelsW tokTrunc [exW1] (by decide) (by decide)
     (fun _ _ _ _ => rfl) (fun _ _ _ _ => rfl)⟩

/-! ## Helper lemmas: row parsing -/

theorem negGet_isSome {x : List String} {k : Nat} (h1 : 1 ≤ k)
    (h2 : k ≤ x.length) : (negGet x k).isSome := by
  unfold negGet
  rw [if_pos ⟨h1, h2⟩, List.get?_eq_get (by omega)]
  rfl

theorem getEvidences_length {line : List String} :
    ∀ {n : Nat} {l : List String}, getEvidences line n = some l → l.length = n
  | 0, l, h => by
    simp only [getEvidences, Option.some.injEq] at h
    subst h
    rfl
  | n + 1, l, h => by
    rw [getEvidences] at h
    simp only [Option.bind_eq_bind, Option.bind_eq_some, Option.pure_def,
      Option.some.injEq] at h
    rcases h with ⟨rest, hr, e, -, rfl⟩
    simp [List.length_append, getEvidences_length hr]

theorem getEvidences_isSome {s : List String} :
    ∀ {n : Nat}, 2 + n ≤ s.length → (getEvidences s n).isSome
  | 0, _ => by simp [getEvidences]
  | n + 1, h => by
    rw [getEvidences]
    rcases Option.isSome_iff_exists.mp
      (getEvidences_isSome (s := s) (n := n) (by omega)) with ⟨rest, hr⟩
    have hg : s.get? (2 + n) = some (s.get ⟨2 + n, by omega⟩) :=
      List.get?_eq_get (by omega)
    rw [hr, hg]
    rfl

theorem get_metadata_isSome {line : List String} (h : 5 ≤ line.length) :
    (get_metadata line).isSome := by
  rcases Option.isSome_iff_exists.mp
    (negGet_isSome (x := line) (k := 3) (by omega) (by omega)) with ⟨c, hc⟩
  rcases Option.isSome_iff_exists.mp
    (negGet_isSome (x := line) (k := 4) (by omega) (by omega)) with ⟨rd, hrd⟩
  rcases Option.isSome_iff_exists.mp
    (negGet_isSome (x := line) (k := 5) (by omega) (by omega)) with ⟨cd, hcd⟩
  have h0 : line.get? 0 = some (line.get ⟨0, by omega⟩) :=
    List.get?_eq_get (by omega)
  have h1 : line.get? 1 = some (line.get ⟨1, by omega⟩) :=
    List.get?_eq_get (by omega)
  rw [get_metadata, hc, hrd, h0, h1, hcd]
  rfl

theorem create_example_spec {n : Nat} {line : List String} {p : ExampleParts}
    (h : create_example n line = some p) :
    p.evidences.length = n ∧
    ∃ s, negGet line 1 = some s ∧ p.label = strLower s := by
  rw [create_example] at h
  simp only [Option.bind_eq_bind, Option.bind_eq_some, Option.pure_def,
    Option.some.injEq] at h
  rcases h with ⟨ev, hev, ct, hct, lf, hlf, md, hmd, rfl⟩
  exact ⟨getEvidences_length hev, lf, hlf, rfl⟩

theorem create_example_isSome {n : Nat} {line : List String}
    (h5 : 5 ≤ line.length) (hn : 2 + n ≤ line.length) :
    (create_example n line).isSome := by
  rcases Option.isSome_iff_exists.mp (getEvidences_isSome hn) with ⟨ev, hev⟩
  rcases Option.isSome_iff_exists.mp
    (negGet_isSome (x := line) (k := 2) (by omega) (by omega)) with ⟨ct, hct⟩
  rcases Option.isSome_iff_exists.mp
    (negGet_isSome (x := line) (k := 1) (by omega) (by omega)) with ⟨lf, hlf⟩
  rcases Option.isSome_iff_exists.mp (get_metadata_isSome h5) with ⟨md, hmd⟩
  rw [create_example, hev, hct, hlf, hmd]
  rfl

/-! ## Helper lemmas: the loader loops -/

theorem trainStep_cases {cfg : ProcConfig} {create : Bool} {S : List String}
    {i : Nat} {line : List String}
    {out : List String × Option InputExample}
    (h : trainStep cfg create S i line = some out) :
    ((i = 0 ∨ line = []) ∧ out = (S, none)) ∨
    (i ≠ 0 ∧ line ≠ [] ∧ ∃ p, create_example cfg.num_evidences line = some p ∧
      ((create = true ∧
        out = ((if p.label ∈ S then S else S ++ [p.label]),
               some (mkExample cfg i p))) ∨
       (create = false ∧ p.label ∈ S ∧ out = (S, some (mkExample cfg i p))))) := by
  unfold trainStep at h
  split at h
  next hi =>
    simp only [Option.some.injEq] at h
    exact Or.inl ⟨Or.inl hi, h.symm⟩
  next hi =>
    split at h
    next hl =>
      simp only [Option.some.injEq] at h
      exact Or.inl ⟨Or.inr hl, h.symm⟩
    next hl =>
      split at h
      next => simp at h
      next p hp =>
        by_cases hc : create = true
        · rw [if_pos hc] at h
          simp only [Option.some.injEq] at h
          exact Or.inr ⟨hi, hl, p, hp, Or.inl ⟨hc, h.symm⟩⟩
        · rw [if_neg hc] at h
          by_cases hm : p.label ∈ S
          · rw [if_pos hm] at h
            simp only [Option.some.injEq] at h
            exact Or.inr ⟨hi, hl, p, hp,
              Or.inr ⟨Bool.eq_false_iff.mpr hc, hm, h.symm⟩⟩
          · rw [if_neg hm] at h
            simp at h

theorem devStep_cases {cfg : ProcConfig} {S : List String} {i : Nat}
    {line : List String} {out : Option InputExample × Nat}
    (h : devStep cfg S i line = some out) :
    ((i = 0 ∨ line = []) ∧ out = (none, 0)) ∨
    (i ≠ 0 ∧ line ≠ [] ∧ ∃ p, create_example cfg.num_evidences line = some p ∧
      ((p.label ∈ S ∧ out = (some (mkExample cfg i p), 0)) ∨
       (p.label ∉ S ∧ out = (none, 1)))) := by
  unfold devStep at h
  split at h
  next hi =>
    simp only [Option.some.injEq] at h
    exact Or.inl ⟨Or.inl hi, h.symm⟩
  next hi =>
    split at h
    next hl =>
      simp only [Option.some.injEq] at h
      exact Or.inl ⟨Or.inr hl, h.symm⟩
    next hl =>
      split at h
      next => simp at h
      next p hp =>
        by_cases hm : p.label ∈ S
        · rw [if_pos hm] at h
          simp only [Option.some.injEq] at h
          exact Or.inr ⟨hi, hl, p, hp, Or.inl ⟨hm, h.symm⟩⟩
        · rw [if_neg hm] at h
          simp only [Option.some.injEq] at h
          exact Or.inr ⟨hi, hl, p, hp, Or.inr ⟨hm, h.symm⟩⟩

theorem devStep_header {cfg : ProcConfig} {S : List String} {i : Nat}
    {line : List String} (hi : i = 0) :
    devStep cfg S i line = some (none, 0) := by
  unfold devStep
  rw [if_pos hi]

theorem devStep_empty {cfg : ProcConfig} {S : List String} {i : Nat}
    (hi : i ≠ 0) : devStep cfg S i [] = some (none, 0) := by
  unfold devStep
  rw [if_neg hi, if_pos rfl]

theorem devStep_data {cfg : ProcConfig} {S : List String} {i : Nat}
    {line : List String} {p : ExampleParts} (hi : i ≠ 0) (hl : line ≠ [])
    (hp : create_example cfg.num_evidences line = some p) :
    devStep cfg S i line =
      if p.label ∈ S then some (some (mkExample cfg i p), 0)
      else some (none, 1) := by
  unfold devStep
  rw [if_neg hi, if_neg hl, hp]

theorem trainStep_header {cfg : ProcConfig} {create : Bool} {S : List String}
    {i : Nat} {line : List String} (hi : i = 0) :
    trainStep cfg create S i line = some (S, none) := by
  unfold trainStep
  rw [if_pos hi]

theorem trainStep_empty {cfg : ProcConfig} {create : Bool} {S : List String}
    {i : Nat} (hi : i ≠ 0) : trainStep cfg create S i [] = some (S, none) := by
  unfold trainStep
  rw [if_neg hi, if_pos rfl]

theorem trainStep_create_data {cfg : ProcConfig} {S : List String} {i : Nat}
    {line : List String} {p : ExampleParts} (hi : i ≠ 0) (hl : line ≠ [])
    (hp : create_example cfg.num_evidences line = some p) :
    trainStep cfg true S i line =
      some ((if p.label ∈ S then S else S ++ [p.label]),
        some (mkExample cfg i p)) := by
  unfold trainStep
  rw [if_neg hi, if_neg hl, hp]
  simp

theorem trainStep_check_data {cfg : ProcConfig} {S : List String} {i : Nat}
    {line : List String} {p : ExampleParts} (hi : i ≠ 0) (hl : line ≠ [])
    (hp : create_example cfg.num_evidences line = some p) :
    trainStep cfg false S i line =
      if p.label ∈ S then some (S, some (mkExample cfg i p)) else none := by
  unfold trainStep
  rw [if_neg hi, if_neg hl, hp]
  simp

theorem rowLabel_skip {cfg : ProcConfig} {p : Nat × List String}
    (h : p.1 = 0 ∨ p.2 = []) : rowLabel cfg p = none := by
  unfold rowLabel
  rw [if_pos h]

theorem rowLabel_data {cfg : ProcConfig} {i : Nat} {line : List String}
    {q : ExampleParts} (hi : i ≠ 0) (hl : line ≠ [])
    (hq : create_example cfg.num_evidences line = some q) :
    rowLabel cfg (i, line) = some q.label := by
  unfold rowLabel
  rw [if_neg (by simp [hi, hl]), hq]
  rfl

theorem devSelect_skip {cfg : ProcConfig} {S : List String}
    {p : Nat × List String} (h : p.1 = 0 ∨ p.2 = []) :
    devSelect cfg S p = none := by
  unfold devSelect
  rw [if_pos h]

theorem devSelect_data {cfg : ProcConfig} {S : List String} {i : Nat}
    {line : List String} {q : ExampleParts} (hi : i ≠ 0) (hl : line ≠ [])
    (hq : create_example cfg.num_evidences line = some q) :
    devSelect cfg S (i, line) =
      if q.label ∈ S then some (mkExample cfg i q) else none := by
  unfold devSelect
  rw [if_neg (by simp [hi, hl]), hq]

theorem trainRowExample_skip {cfg : ProcConfig} {p : Nat × List String}
    (h : p.1 = 0 ∨ p.2 = []) : trainRowExample cfg p = none := by
  unfold trainRowExample
  rw [if_pos h]

theorem trainRowExample_data {cfg : ProcConfig} {i : Nat} {line : List String}
    {q : ExampleParts} (hi : i ≠ 0) (hl : line ≠ [])
    (hq : create_example cfg.num_evidences line = some q) :
    trainRowExample cfg (i, line) = some (mkExample cfg i q) := by
  unfold trainRowExample
  rw [if_neg (by simp [hi, hl]), hq]
  rfl

theorem devSelect_some {cfg : ProcConfig} {S : List String}
    {p : Nat × List String} {e : InputExample}
    (h : devSelect cfg S p = some e) :
    p.1 ≠ 0 ∧ p.2 ≠ [] ∧ ∃ q, create_example cfg.num_evidences p.2 = some q ∧
      q.label ∈ S ∧ e = mkExample cfg p.1 q := by
  unfold devSelect at h
  split at h
  · simp at h
  next hcond =>
    push_neg at hcond
    split at h
    · simp at h
    next q hq =>
      split at h
      next hm =>
        simp only [Option.some.injEq] at h
        exact ⟨hcond.1, hcond.2, q, hq, hm, h.symm⟩
      next => simp at h

theorem devFold_eq {cfg : ProcConfig} {S : List String} :
    ∀ {L : List (List String)} {i : Nat},
      (∀ p ∈ L.enumFrom i, p.1 ≠ 0 → p.2 ≠ [] →
        (create_example cfg.num_evidences p.2).isSome) →
      devFold cfg S i L =
        some ((L.enumFrom i).filterMap (devSelect cfg S),
          ((L.enumFrom i).filterMap (rowLabel cfg)).countP
            fun l => decide (l ∉ S))
  | [], i, _ => by simp [devFold]
  | l :: ls, i, H => by
    have Htail : ∀ p ∈ ls.enumFrom (i + 1), p.1 ≠ 0 → p.2 ≠ [] →
        (create_example cfg.num_evidences p.2).isSome := fun p hp =>
      H p (by rw [List.enumFrom_cons]; exact List.mem_cons_of_mem _ hp)
    have IH := devFold_eq (S := S) (L := ls) (i := i + 1) Htail
    rw [List.enumFrom_cons]
    by_cases hi : i = 0
    · rw [devFold, devStep_header hi, IH]
      simp [List.filterMap_cons, devSelect_skip (p := (i, l)) (Or.inl hi),
        rowLabel_skip (p := (i, l)) (Or.inl hi)]
    · by_cases hl : l = []
      · subst hl
        rw [devFold, devStep_empty hi, IH]
        simp [List.filterMap_cons, devSelect_skip (p := (i, ([] : List String))) (Or.inr rfl),
          rowLabel_skip (p := (i, ([] : List String))) (Or.inr rfl)]
      · rcases Option.isSome_iff_exists.mp
          (H (i, l) (by rw [List.enumFrom_cons]; exact List.mem_cons_self _ _)
            hi hl) with ⟨q, hq⟩
        by_cases hm : q.label ∈ S
        · rw [devFold, devStep_data hi hl hq, if_pos hm, IH]
          simp [List.filterMap_cons, devSelect_data hi hl hq,
            rowLabel_data hi hl hq, hm]
        · rw [devFold, devStep_data hi hl hq, if_neg hm, IH]
          simp [List.filterMap_cons, devSelect_data hi hl hq,
            rowLabel_data hi hl hq, hm, Nat.add_comm]

theorem devFold_mem {cfg : ProcConfig} {S : List String} :
    ∀ {L : List (List String)} {i : Nat} {exs : List InputExample} {k : Nat},
      devFold cfg S i L = some (exs, k) →
      ∀ e ∈ exs, ∃ j line p, create_example cfg.num_evidences line = some p ∧
        e = mkExample cfg j p
  | [], i, exs, k, h => by
    simp only [devFold, Option.some.injEq, Prod.mk.injEq] at h
    rcases h with ⟨rfl, -⟩
    simp
  | l :: ls, i, exs, k, h => by
    rw [devFold] at h
    cases hstep : devStep cfg S i l with
    | none => rw [hstep] at h; simp at h
    | some out =>
      obtain ⟨exOpt, k0⟩ := out
      rw [hstep] at h
      cases htail : devFold cfg S (i + 1) ls with
      | none => simp only [htail] at h; exact absurd h (by simp)
      | some res =>
        obtain ⟨exs', K⟩ := res
        have IH := devFold_mem (L := ls) (i := i + 1) htail
        cases exOpt with
        | none =>
          simp only [htail, Option.some.injEq, Prod.mk.injEq] at h
          obtain ⟨rfl, -⟩ := h
          exact IH
        | some e0 =>
          simp only [htail, Option.some.injEq, Prod.mk.injEq] at h
          obtain ⟨rfl, -⟩ := h
          intro e he
          rcases List.mem_cons.mp he with rfl | he'
          · rcases devStep_cases hstep with ⟨-, hout⟩ | ⟨-, -, p, hp, hcase⟩
            · simp at hout
            · rcases hcase with ⟨-, hout⟩ | ⟨-, hout⟩
              · simp only [Prod.mk.injEq, Option.some.injEq] at hout
                exact ⟨i, l, p, hp, hout.1⟩
              · simp at hout
          · exact IH e he'

theorem trainFold_mem {cfg : ProcConfig} {create : Bool} :
    ∀ {L : List (List String)} {S : List String} {i : Nat}
      {Sf : List String} {exs : List InputExample},
      trainFold cfg create S i L = some (Sf, exs) →
      ∀ e ∈ exs, ∃ j line p, create_example cfg.num_evidences line = some p ∧
        e = mkExample cfg j p
  | [], S, i, Sf, exs, h => by
    simp only [trainFold, Option.some.injEq, Prod.mk.injEq] at h
    rcases h with ⟨-, rfl⟩
    simp
  | l :: ls, S, i, Sf, exs, h => by
    rw [trainFold] at h
    cases hstep : trainStep cfg create S i l with
    | none => rw [hstep] at h; simp at h
    | some out =>
      obtain ⟨S', exOpt⟩ := out
      rw [hstep] at h
      cases htail : trainFold cfg create S' (i + 1) ls with
      | none => simp only [htail] at h; exact absurd h (by simp)
      | some res =>
        obtain ⟨Sf', exs'⟩ := res
        have IH := trainFold_mem (L := ls) (S := S') (i := i + 1) htail
        cases exOpt with
        | none =>
          simp only [htail, Option.some.injEq, Prod.mk.injEq] at h
          obtain ⟨-, rfl⟩ := h
          exact IH
        | some e0 =>
          simp only [htail, Option.some.injEq, Prod.mk.injEq] at h
          obtain ⟨-, rfl⟩ := h
          intro e he
          rcases List.mem_cons.mp he with rfl | he'
          · rcases trainStep_cases hstep with ⟨-, hout⟩ | ⟨-, -, p, hp, hcase⟩
            · simp at hout
            · rcases hcase with ⟨-, hout⟩ | ⟨-, -, hout⟩ <;>
              · simp only [Prod.mk.injEq, Option.some.injEq] at hout
                exact ⟨i, l, p, hp, hout.2⟩
          · exact IH e he'

theorem trainFold_check_labels {cfg : ProcConfig} {S : List String} :
    ∀ {L : List (List String)} {i : Nat} {Sf : List String}
      {exs : List InputExample},
      trainFold cfg false S i L = some (Sf, exs) →
      ∀ p ∈ L.enumFrom i, p.1 ≠ 0 → p.2 ≠ [] →
        ∀ q, create_example cfg.num_evidences p.2 = some q → q.label ∈ S
  | [], i, Sf, exs, _ => by simp
  | l :: ls, i, Sf, exs, h => by
    rw [trainFold] at h
    cases hstep : trainStep cfg false S i l with
    | none => rw [hstep] at h; simp at h
    | some out =>
      obtain ⟨S', exOpt⟩ := out
      rw [hstep] at h
      cases htail : trainFold cfg false S' (i + 1) ls with
      | none => simp only [htail] at h; exact absurd h (by simp)
      | some res =>
        rw [List.enumFrom_cons, List.forall_mem_cons]
        rcases trainStep_cases hstep with ⟨hskip, hout⟩ | ⟨hi, hl, p, hp, hcase⟩
        · simp only [Prod.mk.injEq] at hout
          obtain ⟨rfl, -⟩ := hout
          constructor
          · intro h1 h2
            rcases hskip with h0 | h0
            · exact absurd h0 h1
            · exact absurd h0 h2
          · exact trainFold_check_labels (L := ls) (i := i + 1) htail
        · rcases hcase with ⟨hbad, -⟩ | ⟨-, hm, hout⟩
          · exact absurd hbad (by simp)
          · simp only [Prod.mk.injEq] at hout
            obtain ⟨rfl, -⟩ := hout
            constructor
            · intro _ _ q hq
              rw [hp] at hq
              exact (Option.some.inj hq) ▸ hm
            · exact trainFold_check_labels (L := ls) (i := i + 1) htail

theorem trainFold_check_isSome {cfg : ProcConfig} {S : List String} :
    ∀ {L : List (List String)} {i : Nat},
      (∀ p ∈ L.enumFrom i, p.1 ≠ 0 → p.2 ≠ [] →
        ∀ q, create_example cfg.num_evidences p.2 = some q → q.label ∈ S) →
      (∀ p ∈ L.enumFrom i, p.1 ≠ 0 → p.2 ≠ [] →
        (create_example cfg.num_evidences p.2).isSome) →
      (trainFold cfg false S i L).isSome = true
  | [], i, _, _ => by simp [trainFold]
  | l :: ls, i, H1, H2 => by
    have H1t : ∀ p ∈ ls.enumFrom (i + 1), p.1 ≠ 0 → p.2 ≠ [] →
        ∀ q, create_example cfg.num_evidences p.2 = some q → q.label ∈ S :=
      fun p hp => H1 p (by rw [List.enumFrom_cons]; exact List.mem_cons_of_mem _ hp)
    have H2t : ∀ p ∈ ls.enumFrom (i + 1), p.1 ≠ 0 → p.2 ≠ [] →
        (create_example cfg.num_evidences p.2).isSome :=
      fun p hp => H2 p (by rw [List.enumFrom_cons]; exact List.mem_cons_of_mem _ hp)
    have IH := trainFold_check_isSome (L := ls) (i := i + 1) H1t H2t
    rcases Option.isSome_iff_exists.mp IH with ⟨res, hres⟩
    obtain ⟨Sf, exs⟩ := res
    by_cases hi : i = 0
    · rw [trainFold, trainStep_header hi]
      simp [hres]
    · by_cases hl : l = []
      · subst hl
        rw [trainFold, trainStep_empty hi]
        simp [hres]
      · rcases Option.isSome_iff_exists.mp
          (H2 (i, l) (by rw [List.enumFrom_cons]; exact List.mem_cons_self _ _)
            hi hl) with ⟨q, hq⟩
        have hm : q.label ∈ S :=
          H1 (i, l) (by rw [List.enumFrom_cons]; exact List.mem_cons_self _ _)
            hi hl q hq
        rw [trainFold, trainStep_check_data hi hl hq, if_pos hm]
        simp [hres]

theorem trainFold_create_isSome {cfg : ProcConfig} :
    ∀ {L : List (List String)} {S : List String} {i : Nat},
      (∀ p ∈ L.enumFrom i, p.1 ≠ 0 → p.2 ≠ [] →
        (create_example cfg.num_evidences p.2).isSome) →
      (trainFold cfg true S i L).isSome = true
  | [], S, i, _ => by simp [trainFold]
  | l :: ls, S, i, H => by
    have Htail : ∀ p ∈ ls.enumFrom (i + 1), p.1 ≠ 0 → p.2 ≠ [] →
        (create_example cfg.num_evidences p.2).isSome :=
      fun p hp => H p (by rw [List.enumFrom_cons]; exact List.mem_cons_of_mem _ hp)
    by_cases hi : i = 0
    · rw [trainFold, trainStep_header hi]
      rcases Option.isSome_iff_exists.mp
        (trainFold_create_isSome (L := ls) (S := S) (i := i + 1) Htail)
        with ⟨⟨Sf, exs⟩, hres⟩
      simp [hres]
    · by_cases hl : l = []
      · subst hl
        rw [trainFold, trainStep_empty hi]
        rcases Option.isSome_iff_exists.mp
          (trainFold_create_isSome (L := ls) (S := S) (i := i + 1) Htail)
          with ⟨⟨Sf, exs⟩, hres⟩
        simp [hres]
      · rcases Option.isSome_iff_exists.mp
          (H (i, l) (by rw [List.enumFrom_cons]; exact List.mem_cons_self _ _)
            hi hl) with ⟨q, hq⟩
        rw [trainFold, trainStep_create_data hi hl hq]
        rcases Option.isSome_iff_exists.mp
          (trainFold_create_isSome (L := ls)
            (S := if q.label ∈ S then S else S ++ [q.label]) (i := i + 1) Htail)
          with ⟨⟨Sf, exs⟩, hres⟩
        simp [hres]

theorem trainFold_create_labelSet {cfg : ProcConfig} :
    ∀ {L : List (List String)} {S Sf : List String} {i : Nat}
      {exs : List InputExample},
      trainFold cfg true S i L = some (Sf, exs) →
      (∀ l, l ∈ Sf ↔ l ∈ S ∨ l ∈ (L.enumFrom i).filterMap (rowLabel cfg)) ∧
      (S.Nodup → Sf.Nodup)
  | [], S, Sf, i, exs, h => by
    simp only [trainFold, Option.some.injEq, Prod.mk.injEq] at h
    obtain ⟨rfl, -⟩ := h
    simp
  | l :: ls, S, Sf, i, exs, h => by
    rw [trainFold] at h
    cases hstep : trainStep cfg true S i l with
    | none => rw [hstep] at h; simp at h
    | some out =>
      obtain ⟨S', exOpt⟩ := out
      rw [hstep] at h
      cases htail : trainFold cfg true S' (i + 1) ls with
      | none => simp only [htail] at h; exact absurd h (by simp)
      | some res =>
        obtain ⟨Sf', exs'⟩ := res
        have IH := trainFold_create_labelSet (L := ls) (S := S') (i := i + 1)
          htail
        have hSf : Sf' = Sf := by
          cases exOpt <;>
            simp only [htail, Option.some.injEq, Prod.mk.injEq] at h <;>
            exact h.1
        subst hSf
        rw [List.enumFrom_cons]
        rcases trainStep_cases hstep with ⟨hskip, hout⟩ | ⟨hi, hl, p, hp, hcase⟩
        · simp only [Prod.mk.injEq] at hout
          obtain ⟨rfl, -⟩ := hout
          rw [List.filterMap_cons_none (rowLabel_skip hskip)]
          exact IH
        · rcases hcase with ⟨-, hout⟩ | ⟨hbad, -⟩
          · simp only [Prod.mk.injEq] at hout
            obtain ⟨rfl, -⟩ := hout
            rw [List.filterMap_cons_some (rowLabel_data hi hl hp)]
            constructor
            · intro l'
              rw [(IH.1 l'), List.mem_cons]
              by_cases hm : p.label ∈ S
              · rw [if_pos hm]
                constructor
                · rintro (h1 | h1)
                  · exact Or.inl h1
                  · exact Or.inr (Or.inr h1)
                · rintro (h1 | h1 | h1)
                  · exact Or.inl h1
                  · exact Or.inl (h1 ▸ hm)
                  · exact Or.inr h1
              · rw [if_neg hm]
                simp only [List.mem_append, List.mem_singleton]
                tauto
            · intro hS
              apply IH.2
              by_cases hm : p.label ∈ S
              · rwa [if_pos hm]
              · rw [if_neg hm]
                rw [List.nodup_append]
                exact ⟨hS, List.nodup_singleton _,
                  fun a ha hb => hm ((List.mem_singleton.mp hb) ▸ ha)⟩
          · exact absurd hbad (by simp)

/-! ## Claim C2 -/

/-- C2: with every proper data row parseable, the dev and the test loader
both return exactly the examples of the rows whose (lower-cased) label is
in the frozen set `S` together with the count of the parsed rows whose
label is not (each excluded row contributing exactly one to the count,
by definition of `devSkipped`), and an example built from a row is in the
output exactly when its label is in `S`; in particular exclusion is
counted, never fatal. -/
theorem c2_dev_test_filter (cfg : ProcConfig) (S : List String)
    (lines : List (List String))
    (H : ∀ p ∈ lines.enum, p.1 ≠ 0 → p.2 ≠ [] →
      (create_example cfg.num_evidences p.2).isSome) :
    get_dev_examples cfg S lines =
      some (devKept cfg S lines, devSkipped cfg S lines) ∧
    get_test_examples cfg S lines =
      some (devKept cfg S lines, devSkipped cfg S lines) ∧
    (∀ p ∈ lines.enum, p.1 ≠ 0 → p.2 ≠ [] →
      ∀ q, create_example cfg.num_evidences p.2 = some q →
        (mkExample cfg p.1 q ∈ devKept cfg S lines ↔ q.label ∈ S)) := by
  have he : lines.enum = lines.enumFrom 0 := rfl
  have hmain : devFold cfg S 0 lines =
      some (devKept cfg S lines, devSkipped cfg S lines) := by
    rw [devKept, devSkipped, seenLabels, he]
    exact devFold_eq (by rw [← he]; exact H)
  refine ⟨hmain, hmain, ?_⟩
  intro p hp h1 h2 q hq
  constructor
  · intro hmem
    rcases List.mem_filterMap.mp hmem with ⟨r, -, hsel⟩
    rcases devSelect_some hsel with ⟨-, -, q', -, hm', heq⟩
    have hlab : q.label = q'.label := by
      have := congrArg InputExample.label heq
      exact this
    rw [hlab]
    exact hm'
  · intro hm
    refine List.mem_filterMap.mpr ⟨p, hp, ?_⟩
    obtain ⟨i, line⟩ := p
    rw [devSelect_data h1 h2 hq, if_pos hm]

/-- Witness for C2 at the concrete fixtures: the unknown-label row is
skipped (count 1), the known-label row is kept. -/
theorem c2_dev_test_filter_witness :
    (∀ p ∈ linesW.enum, p.1 ≠ 0 → p.2 ≠ [] →
      (create_example cfgW.num_evidences p.2).isSome) ∧
    (get_dev_examples cfgW ["false", "true"] linesW =
      some (devKept cfgW ["false", "true"] linesW,
        devSkipped cfgW ["false", "true"] linesW) ∧
    get_test_examples cfgW ["false", "true"] linesW =
      some (devKept cfgW ["false", "true"] linesW,
        devSkipped cfgW ["false", "true"] linesW) ∧
    (∀ p ∈ linesW.enum, p.1 ≠ 0 → p.2 ≠ [] →
      ∀ q, create_example cfgW.num_evidences p.2 = some q →
        (mkExample cfgW p.1 q ∈ devKept cfgW ["false", "true"] linesW ↔
          q.label ∈ ["false", "true"]))) :=
  ⟨by decide, c2_dev_test_filter cfgW ["false", "true"] linesW (by decide)⟩

/-! ## Claim C4 -/

/-- C4: with every proper data row parseable, `get_train_examples` run
against a frozen set (`create_label_set` false) raises (returns `none`)
exactly when some non-header, non-empty row's lower-cased label is
outside the frozen set; with `create_label_set` true it never fails —
every label is absorbed into the growing set. -/
theorem c4_frozen_vocabulary_check (cfg : ProcConfig) (S : List String)
    (lines : List (List String))
    (H : ∀ p ∈ lines.enum, p.1 ≠ 0 → p.2 ≠ [] →
      (create_example cfg.num_evidences p.2).isSome) :
    ((get_train_examples cfg false S lines).isNone = true ↔
      ∃ p ∈ lines.enum, p.1 ≠ 0 ∧ p.2 ≠ [] ∧
        ∃ q, create_example cfg.num_evidences p.2 = some q ∧ q.label ∉ S) ∧
    (get_train_examples cfg true S lines).isSome = true := by
  have he : lines.enum = lines.enumFrom 0 := rfl
  have H' : ∀ p ∈ lines.enumFrom 0, p.1 ≠ 0 → p.2 ≠ [] →
      (create_example cfg.num_evidences p.2).isSome := by rw [← he]; exact H
  constructor
  · have hiff : (trainFold cfg false S 0 lines).isSome = true ↔
        ∀ p ∈ lines.enumFrom 0, p.1 ≠ 0 → p.2 ≠ [] →
          ∀ q, create_example cfg.num_evidences p.2 = some q → q.label ∈ S := by
      constructor
      · intro hs
        rcases Option.isSome_iff_exists.mp hs with ⟨⟨Sf, exs⟩, hres⟩
        exact trainFold_check_labels hres
      · intro hall
        exact trainFold_check_isSome hall H'
    rw [get_train_examples, Option.isNone_iff_eq_none,
      ← Option.not_isSome_iff_eq_none, hiff, he]
    push_neg
    constructor
    · rintro ⟨p, hp, h1, h2, q, hq, hnq⟩
      exact ⟨p, hp, h1, h2, q, hq, hnq⟩
    · rintro ⟨p, hp, h1, h2, q, hq, hnq⟩
      exact ⟨p, hp, h1, h2, q, hq, hnq⟩
  · exact trainFold_create_isSome H'

/-- Witness for C4 at the concrete fixtures: against the frozen set
containing only "false" and "true" the unknown-label row makes the check
run fail, and the create run succeeds. -/
theorem c4_frozen_vocabulary_check_witness :
    (∀ p ∈ linesW.enum, p.1 ≠ 0 → p.2 ≠ [] →
      (create_example cfgW.num_evidences p.2).isSome) ∧
    (((get_train_examples cfgW false ["false", "true"] linesW).isNone = true ↔
      ∃ p ∈ linesW.enum, p.1 ≠ 0 ∧ p.2 ≠ [] ∧
        ∃ q, create_example cfgW.num_evidences p.2 = some q ∧
          q.label ∉ ["false", "true"]) ∧
    (get_train_examples cfgW true ["false", "true"] linesW).isSome = true) :=
  ⟨by decide,
   c4_frozen_vocabulary_check cfgW ["false", "true"] linesW (by decide)⟩

/-! ## Claim C5 -/

/-- C5: after a training scan that starts from an empty label set,
`get_labels` returns an ascending sorted, duplicate-free list containing
exactly the labels seen during the scan, whose length is the number of
distinct labels seen — never the raw unsorted set, whose order is
irrelevant because the result is a sort of it. -/
theorem c5_sorted_label_vocabulary (cfg : ProcConfig)
    (lines : List (List String)) (Sf : List String) (exs : List InputExample)
    (h : get_train_examples cfg true [] lines = some (Sf, exs)) :
    List.Sorted (fun a b => a ≤ b) (get_labels Sf) ∧
    (get_labels Sf).Nodup ∧
    (∀ l, l ∈ get_labels Sf ↔ l ∈ seenLabels cfg lines) ∧
    (get_labels Sf).length = (seenLabels cfg lines).toFinset.card := by
  obtain ⟨hmem, hnd⟩ :=
    trainFold_create_labelSet (L := lines) (S := []) (i := 0) h
  have hnodup : Sf.Nodup := hnd List.nodup_nil
  have hperm : (get_labels Sf).Perm Sf := List.perm_insertionSort _ _
  have hseen : ∀ l, l ∈ Sf ↔ l ∈ seenLabels cfg lines := by
    intro l
    rw [hmem l, seenLabels]
    simp [List.enum]
  have hmem' : ∀ l, l ∈ get_labels Sf ↔ l ∈ seenLabels cfg lines := by
    intro l
    rw [hperm.mem_iff]
    exact hseen l
  have hfin : Sf.toFinset = (seenLabels cfg lines).toFinset := by
    ext x
    simp only [List.mem_toFinset]
    exact hseen x
  refine ⟨List.sorted_insertionSort _ _, hperm.nodup_iff.mpr hnodup, hmem', ?_⟩
  calc (get_labels Sf).length = Sf.length := hperm.length_eq
    _ = Sf.toFinset.card := (List.toFinset_card_of_nodup hnodup).symm
    _ = (seenLabels cfg lines).toFinset.card := by rw [hfin]

/-- Witness for C5 at the concrete fixtures: the scan sees "unknown" then
"false"; `get_labels` returns the sorted pair. -/
theorem c5_sorted_label_vocabulary_witness :
    (get_train_examples cfgW true [] linesW =
      some (["unknown", "false"],
        [⟨"train-1", "claim two", ["e1", "e2", "e3"], "unknown"⟩,
         ⟨"train-2", "claim text", ["e1", "e2", "e3"], "false"⟩])) ∧
    (List.Sorted (fun a b => a ≤ b) (get_labels ["unknown", "false"]) ∧
    (get_labels ["unknown", "false"]).Nodup ∧
    (∀ l, l ∈ get_labels ["unknown", "false"] ↔ l ∈ seenLabels cfgW linesW) ∧
    (get_labels ["unknown", "false"]).length =
      (seenLabels cfgW linesW).toFinset.card) :=
  ⟨by decide,
   c5_sorted_label_vocabulary cfgW linesW ["unknown", "false"]
     [⟨"train-1", "claim two", ["e1", "e2", "e3"], "unknown"⟩,
      ⟨"train-2", "claim text", ["e1", "e2", "e3"], "false"⟩] (by decide)⟩

/-! ## Claim C8 -/

/-- C8: a row with at least the required number of columns (five for the
trailing fields and `2 + num_evidences` for the evidence window) parses
into parts whose evidence list has exactly the configured length and
whose label is the row's last field lower-cased; and every example any of
the three loaders emits has `num_evidences` contexts and a lower-cased
label. -/
theorem c8_evidence_count_and_lowercase (cfg : ProcConfig) :
    (∀ line : List String, 5 ≤ line.length →
      2 + cfg.num_evidences ≤ line.length →
      ∃ p, create_example cfg.num_evidences line = some p ∧
        p.evidences.length = cfg.num_evidences ∧
        ∃ s, negGet line 1 = some s ∧ p.label = strLower s) ∧
    (∀ (create : Bool) (S : List String) lines Sf exs,
      get_train_examples cfg create S lines = some (Sf, exs) →
      ∀ e ∈ exs, e.contexts.length = cfg.num_evidences ∧
        ∃ s, e.label = strLower s) ∧
    (∀ (S : List String) lines exs k,
      get_dev_examples cfg S lines = some (exs, k) →
      ∀ e ∈ exs, e.contexts.length = cfg.num_evidences ∧
        ∃ s, e.label = strLower s) ∧
    (∀ (S : List String) lines exs k,
      get_test_examples cfg S lines = some (exs, k) →
      ∀ e ∈ exs, e.contexts.length = cfg.num_evidences ∧
        ∃ s, e.label = strLower s) := by
  have hone : ∀ (j : Nat) (line : List String) (p : ExampleParts),
      create_example cfg.num_evidences line = some p →
      (mkExample cfg j p).contexts.length = cfg.num_evidences ∧
      ∃ s, (mkExample cfg j p).label = strLower s := by
    intro j line p hp
    obtain ⟨hlen, s, -, hlab⟩ := create_example_spec hp
    exact ⟨hlen, s, hlab⟩
  refine ⟨?_, ?_, ?_, ?_⟩
  · intro line h5 hn
    rcases Option.isSome_iff_exists.mp (create_example_isSome h5 hn) with ⟨p, hp⟩
    obtain ⟨hlen, s, hs, hlab⟩ := create_example_spec hp
    exact ⟨p, hp, hlen, s, hs, hlab⟩
  · intro create S lines Sf exs h e he
    rcases trainFold_mem h e he with ⟨j, line, p, hp, rfl⟩
    exact hone j line p hp
  · intro S lines exs k h e he
    rcases devFold_mem h e he with ⟨j, line, p, hp, rfl⟩
    exact hone j line p hp
  · intro S lines exs k h e he
    rcases devFold_mem h e he with ⟨j, line, p, hp, rfl⟩
    exact hone j line p hp

/-- Witness for C8 at the concrete fixtures: the ten-column row parses
with three evidences and label "false" = lower("False"), and the loaded
dev examples satisfy the invariant. -/
theorem c8_evidence_count_and_lowercase_witness :
    (5 ≤ rowGood.length ∧ 2 + cfgW.num_evidences ≤ rowGood.length) ∧
    (∃ p, create_example cfgW.num_evidences rowGood = some p ∧
      p.evidences.length = cfgW.num_evidences ∧
      ∃ s, negGet rowGood 1 = some s ∧ p.label = strLower s) ∧
    (∀ e ∈ [(⟨"train-2", "claim text", ["e1", "e2", "e3"], "false"⟩ :
        InputExample)],
      e.contexts.length = cfgW.num_evidences ∧ ∃ s, e.label = strLower s) :=
  ⟨⟨by decide, by decide⟩,
   (c8_evidence_count_and_lowercase cfgW).1 rowGood (by decide) (by decide),
   (c8_evidence_count_and_lowercase cfgW).2.2.1 ["false", "true"] linesW
     [⟨"train-2", "claim text", ["e1", "e2", "e3"], "false"⟩] 1 (by decide)⟩

/-! ## Claim C7 -/

/-- C7: a record is in the year-`Y` output (for each of the three emitted
years 2020, 2018, 2016 — `edaOutputs` names no other year) exactly when
it is built from a row whose label is exactly "true" or "false" and whose
`claimDate` has four-character prefix `Y`; every built record carries
`annotation_id` "placeholder", `exp_split` "test", the claim text,
`label_id` equal to the original label string, and numeric label 1 for
"true" and 0 for "false". -/
theorem c7_year_filter (rows : List RawClaimRow) :
    (∀ year ∈ ["2020", "2018", "2016"], ∀ rec : OutRecord,
      rec ∈ biYear year rows ↔
        ∃ r ∈ rows, (r.label = "true" ∨ r.label = "false") ∧
          strTake r.claimDate 4 = year ∧ rec = mkOutRecord r) ∧
    (∀ r : RawClaimRow,
      (mkOutRecord r).annotation_id = "placeholder" ∧
      (mkOutRecord r).exp_split = "test" ∧
      (mkOutRecord r).text = r.claim ∧
      (mkOutRecord r).label_id = r.label ∧
      (r.label = "true" → (mkOutRecord r).label = 1) ∧
      (r.label = "false" → (mkOutRecord r).label = 0)) ∧
    (∀ year out, (year, out) ∈ edaOutputs rows →
      (year = "2020" ∨ year = "2018" ∨ year = "2016") ∧
      out = biYear year rows) := by
  refine ⟨?_, ?_, ?_⟩
  · intro year _ rec
    simp only [biYear, trueFalseOnly, List.mem_map, List.mem_filter,
      beq_iff_eq, Bool.or_eq_true]
    constructor
    · rintro ⟨r, ⟨⟨hr, hlab⟩, hdate⟩, rfl⟩
      exact ⟨r, hr, by tauto, hdate, rfl⟩
    · rintro ⟨r, hr, hlab, hdate, rfl⟩
      exact ⟨r, ⟨⟨hr, by tauto⟩, hdate⟩, rfl⟩
  · intro r
    refine ⟨rfl, rfl, rfl, rfl, ?_, ?_⟩
    · intro h
      simp [mkOutRecord, h]
    · intro h
      simp [mkOutRecord, h]
  · intro year out h
    simp only [edaOutputs, List.mem_cons, List.mem_singleton,
      Prod.mk.injEq, List.not_mem_nil, or_false] at h
    rcases h with ⟨rfl, rfl⟩ | ⟨rfl, rfl⟩ | ⟨rfl, rfl⟩
    · exact ⟨Or.inl rfl, rfl⟩
    · exact ⟨Or.inr (Or.inl rfl), rfl⟩
    · exact ⟨Or.inr (Or.inr rfl), rfl⟩

/-- Witness for C7: the row with claimDate "20200115" and label "true"
yields the record `(placeholder, test, c1, 1, true)` in the 2020 output
and in no other; concretely evaluated on the fixture rows. -/
theorem c7_year_filter_witness :
    ((⟨"placeholder", "test", "c1", 1, "true"⟩ : OutRecord) ∈
        biYear "2020" rowsEdaW ↔
      ∃ r ∈ rowsEdaW, (r.label = "true" ∨ r.label = "false") ∧
        strTake r.claimDate 4 = "2020" ∧
        (⟨"placeholder", "test", "c1", 1, "true"⟩ : OutRecord) =
          mkOutRecord r) ∧
    ((mkOutRecord ⟨"20200115", "c1", "true"⟩).label = 1) ∧
    ((mkOutRecord ⟨"20200115", "c1", "true"⟩).label_id = "true") ∧
    biYear "2020" rowsEdaW = [⟨"placeholder", "test", "c1", 1, "true"⟩] ∧
    biYear "2018" rowsEdaW = [⟨"placeholder", "test", "c2", 0, "false"⟩] ∧
    biYear "2016" rowsEdaW = [] :=
  ⟨(c7_year_filter rowsEdaW).1 "2020" (by decide) _,
   ((c7_year_filter rowsEdaW).2.1 ⟨"20200115", "c1", "true"⟩).2.2.2.2.1 rfl,
   ((c7_year_filter rowsEdaW).2.1 ⟨"20200115", "c1", "true"⟩).2.2.2.1,
   by decide, by decide, by decide⟩

/-! ## Claim C10 -/

theorem negGet_lastN {xs : List String} {k : Nat} (hk : k ≤ 5) :
    negGet xs k = negGet (lastN 5 xs) k := by
  unfold negGet lastN
  have hlen : (xs.drop (xs.length - 5)).length = xs.length - (xs.length - 5) :=
    List.length_drop _ _
  by_cases hc : 1 ≤ k ∧ k ≤ xs.length
  · rw [if_pos hc, if_pos (by rw [hlen]; omega)]
    rw [List.get?_drop]
    congr 1
    rw [hlen]
    omega
  · rw [if_neg hc, if_neg (by rw [hlen]; omega)]

/-- C10 counterexample: the claim says the metadata string is derived
from trailing positions only (so it would depend only on the last few
fields), but `get_metadata` reads `line[0]` (language) and `line[1]`
(site): two twelve-column rows agreeing on their last ten fields but
differing in the two leading fields produce different metadata. -/
theorem c10_metadata_counterexample :
    lastN 10 ["en", "siteA", "f1", "f2", "f3", "f4", "f5", "f6", "f7",
        "f8", "f9", "f10"] =
      lastN 10 ["de", "siteB", "f1", "f2", "f3", "f4", "f5", "f6", "f7",
        "f8", "f9", "f10"] ∧
    lastN 5 ["en", "siteA", "f1", "f2", "f3", "f4", "f5", "f6", "f7",
        "f8", "f9", "f10"] =
      lastN 5 ["de", "siteB", "f1", "f2", "f3", "f4", "f5", "f6", "f7",
        "f8", "f9", "f10"] ∧
    get_metadata ["en", "siteA", "f1", "f2", "f3", "f4", "f5", "f6", "f7",
        "f8", "f9", "f10"] ≠
      get_metadata ["de", "siteB", "f1", "f2", "f3", "f4", "f5", "f6", "f7",
        "f8", "f9", "f10"] := by
  refine ⟨rfl, rfl, ?_⟩
  decide

/-- C10 amended: the metadata string is derived from claimant, claim date
and review date read right-to-left from the end of the row (`line[-3]`,
`line[-5]`, `line[-4]`), together with language and site read from the
two LEADING positions (`line[0]`, `line[1]`); it therefore depends
exactly on the first two and the last five fields of the row, not on the
trailing fields alone. -/
theorem c10_metadata_depends (l1 l2 : List String)
    (hhead : l1.take 2 = l2.take 2) (htail : lastN 5 l1 = lastN 5 l2) :
    get_metadata l1 = get_metadata l2 := by
  have e0 : l1.get? 0 = l2.get? 0 := by
    rw [← List.get?_take (show 0 < 2 by omega), hhead,
      List.get?_take (show 0 < 2 by omega)]
  have e1 : l1.get? 1 = l2.get? 1 := by
    rw [← List.get?_take (show 1 < 2 by omega), hhead,
      List.get?_take (show 1 < 2 by omega)]
  have e3 : negGet l1 3 = negGet l2 3 := by
    rw [negGet_lastN (by omega), htail, ← negGet_lastN (by omega)]
  have e4 : negGet l1 4 = negGet l2 4 := by
    rw [negGet_lastN (by omega), htail, ← negGet_lastN (by omega)]
  have e5 : negGet l1 5 = negGet l2 5 := by
    rw [negGet_lastN (by omega), htail, ← negGet_lastN (by omega)]
  unfold get_metadata
  rw [e3, e4, e0, e1, e5]

/-- Witness for the amended C10 at two concrete rows sharing their first
two and last five fields. -/
theorem c10_metadata_depends_witness :
    (["en", "site", "a", "b", "p", "q", "r", "s", "t"].take 2 =
      ["en", "site", "x", "p", "q", "r", "s", "t"].take 2) ∧
    (lastN 5 ["en", "site", "a", "b", "p", "q", "r", "s", "t"] =
      lastN 5 ["en", "site", "x", "p", "q", "r", "s", "t"]) ∧
    get_metadata ["en", "site", "a", "b", "p", "q", "r", "s", "t"] =
      get_metadata ["en", "site", "x", "p", "q", "r", "s", "t"] :=
  ⟨rfl, rfl,
   c10_metadata_depends _ _ rfl rfl⟩
